import Mathlib

/-!
Verification of the decoding-evaluation workflow of the Haxby MVPA teaching
notebooks (`exploration_mvpa.ipynb` and the activation-analysis notebook).

The embedding models the label table as two aligned lists (`labels`, `chunks`),
pandas boolean-mask selection as `applyMask`, and numpy floating-point scalars
as rationals (`ℚ`), with `Option ℚ` standing for a float that may be NaN
(`np.mean` of an empty collection).  The opaque library classifier is a
parameter; the fallible `Decoder.fit` step is modelled with `Except`.
-/

namespace Exploration

/-- The frame-by-frame label table (`tr_info` in the notebook): the `labels`
column holds the stimulus category of each frame, the `chunks` column the run
identifier of each frame, aligned by position. -/
structure LabelTable where
  labels : List String
  chunks : List Int

/-- `behavioral['labels'].isin(conditions_arr)` from `select_data`: the boolean
mask marking each frame whose label occurs among the wanted conditions. -/
def isinMask (labels : List String) (conditionsArr : List String) : List Bool :=
  labels.map (fun x => decide (x ∈ conditionsArr))

/-- Pandas/numpy boolean indexing `xs[mask]`: keep the entries of `xs` at the
positions where the mask is `true`. -/
def applyMask {α : Type} (mask : List Bool) (xs : List α) : List α :=
  (mask.zip xs).filterMap (fun p => if p.1 then some p.2 else none)

/-- `select_data` from the notebook: build the condition mask with `isin`, then
index the `labels` column, the `chunks` column (run identifiers) by it.  (The
fMRI volume selection `index_img(fmri_str, condition_mask)` applies the same
mask to the external volumetric source and is not modelled.) -/
def select_data (behavioral : LabelTable) (conditionsArr : List String) :
    List String × List Int :=
  let condition_mask := isinMask behavioral.labels conditionsArr
  (applyMask condition_mask behavioral.labels,
   applyMask condition_mask behavioral.chunks)

theorem applyMask_map {α : Type} (p : α → Bool) (xs : List α) :
    applyMask (xs.map p) xs = xs.filter p := by
  induction xs with
  | nil => rfl
  | cons a t ih =>
    cases h : p a <;>
      simp only [applyMask, List.map_cons, List.zip_cons_cons,
        List.filterMap_cons, h, List.filter_cons] <;>
      simpa [applyMask] using ih

theorem applyMask_map_zip {α β : Type} (p : α → Bool) (xs : List α)
    (ys : List β) (h : xs.length = ys.length) :
    (applyMask (xs.map p) xs).zip (applyMask (xs.map p) ys)
      = (xs.zip ys).filter (fun q => p q.1) := by
  induction xs generalizing ys with
  | nil => cases ys <;> simp [applyMask]
  | cons a t ih =>
    cases ys with
    | nil => simp at h
    | cons b u =>
      have hlen : t.length = u.length := by simpa using h
      cases hp : p a <;>
        simp only [applyMask, List.map_cons, List.zip_cons_cons,
          List.filterMap_cons, hp, List.filter_cons] <;>
        simpa [applyMask] using ih u hlen

theorem applyMask_false {α : Type} (mask : List Bool) (xs : List α)
    (h : ∀ b ∈ mask, b = false) : applyMask mask xs = [] := by
  induction mask generalizing xs with
  | nil => rfl
  | cons b t ih =>
    cases xs with
    | nil => rfl
    | cons x u =>
      have hb : b = false := h b (List.mem_cons_self b t)
      subst hb
      have hstep : applyMask (false :: t) (x :: u) = applyMask t u := by
        simp [applyMask]
      rw [hstep]
      exact ih u (fun c hc => h c (List.mem_cons_of_mem _ hc))

/-- C1: for every label table and every non-empty wanted category set,
`select_data` returns exactly the labels whose value lies in the wanted set, in
original order, and the run-identifier subsequence is the run values at the
same positions, aligned position-by-position with the returned labels. -/
theorem select_data_exact (behavioral : LabelTable)
    (conditionsArr : List String)
    (hlen : behavioral.labels.length = behavioral.chunks.length)
    (hne : conditionsArr ≠ []) :
    (select_data behavioral conditionsArr).1
        = behavioral.labels.filter (fun x => decide (x ∈ conditionsArr))
      ∧ (select_data behavioral conditionsArr).1.zip
            (select_data behavioral conditionsArr).2
        = (behavioral.labels.zip behavioral.chunks).filter
            (fun q => decide (q.1 ∈ conditionsArr)) := by
  refine ⟨?_, ?_⟩
  · exact applyMask_map _ behavioral.labels
  · exact applyMask_map_zip _ behavioral.labels behavioral.chunks hlen

/-- Witness for C1 on a concrete four-frame table. -/
theorem select_data_exact_witness :
    ((⟨["face", "cat", "house", "face"], [0, 0, 1, 1]⟩ :
        LabelTable).labels.length
      = (⟨["face", "cat", "house", "face"], [0, 0, 1, 1]⟩ :
        LabelTable).chunks.length)
    ∧ (["face", "house"] : List String) ≠ []
    ∧ ((select_data ⟨["face", "cat", "house", "face"], [0, 0, 1, 1]⟩
          ["face", "house"]).1
        = (⟨["face", "cat", "house", "face"], [0, 0, 1, 1]⟩ :
            LabelTable).labels.filter
            (fun x => decide (x ∈ (["face", "house"] : List String)))
      ∧ (select_data ⟨["face", "cat", "house", "face"], [0, 0, 1, 1]⟩
            ["face", "house"]).1.zip
          (select_data ⟨["face", "cat", "house", "face"], [0, 0, 1, 1]⟩
            ["face", "house"]).2
        = ((⟨["face", "cat", "house", "face"], [0, 0, 1, 1]⟩ :
              LabelTable).labels.zip
            (⟨["face", "cat", "house", "face"], [0, 0, 1, 1]⟩ :
              LabelTable).chunks).filter
            (fun q => decide (q.1 ∈ (["face", "house"] : List String)))) :=
  ⟨by decide, by decide,
    select_data_exact ⟨["face", "cat", "house", "face"], [0, 0, 1, 1]⟩
      ["face", "house"] (by decide) (by decide)⟩

/-- The selection mask of `run_class_zmap`:
`sel_mask = [x in categories for x in task_label_arg]`, where `x in categories`
on a numpy string array tests whether some element of `categories` equals
`x`. -/
def comprehension_mask (task_label_arg : List String)
    (categories : List String) : List Bool :=
  task_label_arg.map (fun x => categories.any (fun c => c == x))

theorem any_beq_eq_mem (cats : List String) (x : String) :
    cats.any (fun c => c == x) = decide (x ∈ cats) := by
  rw [Bool.eq_iff_iff]
  simp only [List.any_eq_true, beq_iff_eq, decide_eq_true_eq]
  constructor
  · rintro ⟨c, hc, rfl⟩
    exact hc
  · intro hx
    exact ⟨x, hx, rfl⟩

/-- C9: the list-comprehension membership mask of `run_class_zmap` selects
exactly the same positions as the `isin`-based mask of `select_data` on the
same labels and categories: the two trial-selection masks are equal. -/
theorem masks_equivalent (labels categories : List String) :
    comprehension_mask labels categories = isinMask labels categories :=
  List.map_congr_left (fun x _ => any_beq_eq_mem categories x)

/-- The `classes_` attribute of a fit nilearn decoder: the distinct labels
occurring in the training labels (the selected condition labels). -/
def decoder_classes (cond_sel : List String) : List String :=
  cond_sel.dedup

/-- `chance_level = 1. / len(d.classes_)` from `print_class_accuracy`. -/
def chance_level (cond_sel : List String) : ℚ :=
  1 / ((decoder_classes cond_sel).length : ℚ)

/-- `np.mean` over a list of floats, modelled on `ℚ`; `none` stands for the
NaN produced by `np.mean` of an empty collection. -/
def np_mean (xs : List ℚ) : Option ℚ :=
  if xs.isEmpty then none else some (xs.sum / (xs.length : ℚ))

/-- `list(d.cv_scores_.values())` pooled into one collection:
`cv_scores_` maps each class to its per-fold score list, and `np.mean` over
the list of per-class lists averages all pooled entries. -/
def pooled_cv_scores (cv_scores : List (String × List ℚ)) : List ℚ :=
  (cv_scores.map Prod.snd).flatten

/-- `classification_accuracy = np.mean(list(d.cv_scores_.values()))` from
`print_class_accuracy` (the returned headline statistic). -/
def print_class_accuracy (cv_scores : List (String × List ℚ)) : Option ℚ :=
  np_mean (pooled_cv_scores cv_scores)

theorem map_snd_replicate (cv : List (String × List ℚ)) (accs : List ℚ)
    (hall : ∀ p ∈ cv, p.2 = accs) :
    cv.map Prod.snd = List.replicate cv.length accs := by
  rw [List.eq_replicate_iff]
  refine ⟨by simp, fun b hb => ?_⟩
  obtain ⟨p, hp, rfl⟩ := List.mem_map.mp hb
  exact hall p hp

/-- C3: when every class's score list in `cv_scores_` equals the per-fold
accuracy sequence (as holds for the notebook's two-class accuracy scoring),
the pooled mean computed by `print_class_accuracy` equals the arithmetic mean
of the per-fold accuracies. -/
theorem print_class_accuracy_pooled_mean (cv : List (String × List ℚ))
    (accs : List ℚ) (hcv : cv ≠ []) (haccs : accs ≠ [])
    (hall : ∀ p ∈ cv, p.2 = accs) :
    print_class_accuracy cv = some (accs.sum / (accs.length : ℚ)) := by
  have hk : 0 < cv.length := List.length_pos.mpr hcv
  have hL : 0 < accs.length := List.length_pos.mpr haccs
  have hpool : pooled_cv_scores cv = (List.replicate cv.length accs).flatten := by
    rw [pooled_cv_scores, map_snd_replicate cv accs hall]
  have hsum : (List.replicate cv.length accs).flatten.sum
      = cv.length • accs.sum := by
    simp [List.sum_flatten]
  have hlen : (List.replicate cv.length accs).flatten.length
      = cv.length * accs.length := by
    simp [List.length_flatten]
  have hne : pooled_cv_scores cv ≠ [] := by
    rw [hpool]
    intro hcontra
    have := congrArg List.length hcontra
    rw [hlen] at this
    simp only [List.length_nil] at this
    exact absurd this (Nat.mul_ne_zero hk.ne' hL.ne')
  have hempty : (pooled_cv_scores cv).isEmpty = false := by
    simp [List.isEmpty_iff, hne]
  rw [print_class_accuracy, np_mean, hempty]
  simp only [Bool.false_eq_true, if_false, Option.some.injEq]
  rw [hpool, hsum, hlen, nsmul_eq_mul]
  push_cast
  rw [mul_div_mul_left _ _ (by exact_mod_cast hk.ne' : (cv.length : ℚ) ≠ 0)]

/-- Witness for C3: two classes, per-fold accuracies `[1, 1/2]`, pooled mean
`3/4`. -/
theorem print_class_accuracy_pooled_mean_witness :
    ([(Prod.mk "face" [1, 1/2]), Prod.mk "house" [1, 1/2]] :
        List (String × List ℚ)) ≠ []
    ∧ ([1, 1/2] : List ℚ) ≠ []
    ∧ print_class_accuracy [Prod.mk "face" [1, 1/2], Prod.mk "house" [1, 1/2]]
        = some (([1, 1/2] : List ℚ).sum / (([1, 1/2] : List ℚ).length : ℚ)) :=
  ⟨by simp, by simp,
    print_class_accuracy_pooled_mean
      [Prod.mk "face" [1, 1/2], Prod.mk "house" [1, 1/2]] [1, 1/2]
      (by simp) (by simp) (by simp)⟩

/-- C7: whenever at least one fold contributes a score (and each pooled score
is a valid accuracy in `[0, 1]`), the aggregate of `print_class_accuracy` is a
defined value in `[0, 1]`; when no fold contributes, the aggregate is the
undefined marker (`np.mean` of an empty collection, NaN), not `0`. -/
theorem aggregate_accuracy_bounds (cv : List (String × List ℚ))
    (hb : ∀ p ∈ cv, ∀ s ∈ p.2, 0 ≤ s ∧ s ≤ 1) :
    (pooled_cv_scores cv ≠ [] →
        ∃ q, print_class_accuracy cv = some q ∧ 0 ≤ q ∧ q ≤ 1)
    ∧ (pooled_cv_scores cv = [] → print_class_accuracy cv = none) := by
  constructor
  · intro hne
    have hmem : ∀ s ∈ pooled_cv_scores cv, 0 ≤ s ∧ s ≤ 1 := by
      intro s hs
      rw [pooled_cv_scores, List.mem_flatten] at hs
      obtain ⟨l, hl, hsl⟩ := hs
      obtain ⟨p, hp, rfl⟩ := List.mem_map.mp hl
      exact hb p hp s hsl
    have hlpos : 0 < (pooled_cv_scores cv).length := List.length_pos.mpr hne
    have hempty : (pooled_cv_scores cv).isEmpty = false := by
      simp [List.isEmpty_iff, hne]
    refine ⟨(pooled_cv_scores cv).sum / ((pooled_cv_scores cv).length : ℚ),
      ?_, ?_, ?_⟩
    · rw [print_class_accuracy, np_mean, hempty]
      simp
    · exact div_nonneg
        (List.sum_nonneg (fun s hs => (hmem s hs).1)) (by positivity)
    · rw [div_le_one (by exact_mod_cast hlpos)]
      have h1 := List.sum_le_card_nsmul (pooled_cv_scores cv) 1
        (fun s hs => (hmem s hs).2)
      simpa using h1
  · intro h0
    rw [print_class_accuracy, np_mean, h0]
    simp

/-- Witness for C7: a single class with one fold score `1/2` gives the defined
aggregate `1/2 ∈ [0, 1]`. -/
theorem aggregate_accuracy_bounds_witness :
    (∀ p ∈ ([Prod.mk "face" [1/2]] : List (String × List ℚ)),
        ∀ s ∈ p.2, 0 ≤ s ∧ s ≤ 1)
    ∧ (pooled_cv_scores [Prod.mk "face" [1/2]] ≠ [] →
        ∃ q, print_class_accuracy [Prod.mk "face" [1/2]] = some q
          ∧ 0 ≤ q ∧ q ≤ 1) :=
  ⟨by
      intro p hp s hs
      simp only [List.mem_singleton] at hp
      subst hp
      simp only [List.mem_singleton] at hs
      subst hs
      norm_num,
    (aggregate_accuracy_bounds [Prod.mk "face" [1/2]]
      (by
        intro p hp s hs
        simp only [List.mem_singleton] at hp
        subst hp
        simp only [List.mem_singleton] at hs
        subst hs
        norm_num)).1⟩

/-- C4 counterexample: passing the three distinct categories
`face, house, bottle` against a label table in which `bottle` never occurs
makes the decoder see only two classes, so the reported chance level is `1/2`,
not `1/3` as the claim (`1/k` for `k` categories passed) requires. -/
theorem chance_level_counterexample :
    chance_level (select_data ⟨["face", "house"], [0, 1]⟩
        ["face", "house", "bottle"]).1 = 1 / 2
    ∧ (1 : ℚ) / (((["face", "house", "bottle"] : List String).dedup.length : ℕ)
        : ℚ) = 1 / 3
    ∧ (1 : ℚ) / 2 ≠ 1 / 3 := by
  have h2 : (decoder_classes (select_data ⟨["face", "house"], [0, 1]⟩
      ["face", "house", "bottle"]).1).length = 2 := by decide
  have h3 : ((["face", "house", "bottle"] : List String).dedup).length = 3 := by
    decide
  refine ⟨?_, ?_, by norm_num⟩
  · rw [chance_level, h2]
    norm_num
  · rw [h3]
    norm_num

/-- C4 amended: for every label table and every passed category set, the
chance level reported by `print_class_accuracy` equals `1/k'`, where `k'` is
the number of distinct categories passed that actually occur in the label
table (the decoder's classes are the distinct labels of the selection); and
when every passed category occurs at least once, it equals `1/k` for `k` the
number of distinct categories passed. -/
theorem chance_level_amended (behavioral : LabelTable) (cats : List String) :
    chance_level (select_data behavioral cats).1
        = 1 / (((cats.filter (fun c =>
            decide (c ∈ behavioral.labels))).dedup.length : ℕ) : ℚ)
    ∧ ((∀ c ∈ cats, c ∈ behavioral.labels) →
        chance_level (select_data behavioral cats).1
          = 1 / ((cats.dedup.length : ℕ) : ℚ)) := by
  have hsel : (select_data behavioral cats).1
      = behavioral.labels.filter (fun x => decide (x ∈ cats)) :=
    applyMask_map _ behavioral.labels
  have hfin : (behavioral.labels.filter (fun x => decide (x ∈ cats))).toFinset
      = (cats.filter (fun c => decide (c ∈ behavioral.labels))).toFinset := by
    ext x
    simp only [List.mem_toFinset, List.mem_filter, decide_eq_true_eq]
    exact ⟨fun h => ⟨h.2, h.1⟩, fun h => ⟨h.2, h.1⟩⟩
  have hlen : (decoder_classes (select_data behavioral cats).1).length
      = (cats.filter (fun c =>
          decide (c ∈ behavioral.labels))).dedup.length := by
    rw [decoder_classes, hsel, ← List.card_toFinset, hfin, List.card_toFinset]
  constructor
  · rw [chance_level, hlen]
  · intro hall
    have hfilter : cats.filter (fun c => decide (c ∈ behavioral.labels))
        = cats :=
      List.filter_eq_self.mpr (fun c hc => decide_eq_true (hall c hc))
    rw [chance_level, hlen, hfilter]

/-- Positions of the selected observations whose run identifier equals `g`
(the held-out test subset of the fold keyed by `g`). -/
def logo_test_indices (runs : List Int) (g : Int) : List ℕ :=
  (List.range runs.length).filter (fun i => decide (runs[i]? = some g))

/-- Positions of the selected observations whose run identifier differs from
`g` (the held-in train subset of the fold keyed by `g`). -/
def logo_train_indices (runs : List Int) (g : Int) : List ℕ :=
  (List.range runs.length).filter (fun i => decide (runs[i]? ≠ some g))

/-- Modelled from the spec: the leave-one-group-out fold partition used by
`svm_loro_cv` and `run_class_zmap` through `cv=LeaveOneGroupOut()`;
`LeaveOneGroupOut` itself is external library code absent from the repository.
Per the spec's Fold Partitioner contract, given the run-identifier sequence of
the selected subset, produce one fold per distinct run value present, whose
test subset is exactly the observations with that run value and whose train
subset is all the others. -/
def leaveOneGroupOut (runs : List Int) : List (List ℕ × List ℕ) :=
  runs.dedup.map (fun g =>
    (logo_train_indices runs g, logo_test_indices runs g))

/-- C2: the leave-one-group-out partition over the selected run identifiers
produces exactly one fold per distinct run value present; each fold's test
subset is exactly the observations with that run value and its train subset is
all others; no run identifier appears in both the train and the test subset of
one fold; and every selected observation lies in the test subset of exactly
one fold (so the test subsets cover the selection with no overlaps). -/
theorem leaveOneGroupOut_partition (runs : List Int) :
    (leaveOneGroupOut runs).length = runs.dedup.length
    ∧ (∀ f ∈ leaveOneGroupOut runs, ∃ g ∈ runs.dedup,
        f = (logo_train_indices runs g, logo_test_indices runs g))
    ∧ (∀ f ∈ leaveOneGroupOut runs, ∀ i ∈ f.1, ∀ j ∈ f.2,
        runs[i]? ≠ runs[j]?)
    ∧ (∀ i, i < runs.length →
        (leaveOneGroupOut runs).countP (fun f => decide (i ∈ f.2)) = 1) := by
  refine ⟨by simp [leaveOneGroupOut], ?_, ?_, ?_⟩
  · intro f hf
    obtain ⟨g, hg, rfl⟩ := List.mem_map.mp hf
    exact ⟨g, hg, rfl⟩
  · intro f hf i hi j hj
    obtain ⟨g, hg, rfl⟩ := List.mem_map.mp hf
    simp only [logo_train_indices, logo_test_indices, List.mem_filter,
      List.mem_range, decide_eq_true_eq] at hi hj
    rw [hj.2]
    exact hi.2
  · intro i hilt
    have hv : runs[i]? = some runs[i] := List.getElem?_eq_getElem hilt
    rw [leaveOneGroupOut, List.countP_map]
    have hcongr : ∀ g ∈ runs.dedup,
        ((fun f : List ℕ × List ℕ => decide (i ∈ f.2)) ∘
          (fun g => (logo_train_indices runs g, logo_test_indices runs g))) g
          = true
        ↔ (g == runs[i]) = true := by
      intro g _
      simp only [Function.comp_apply, decide_eq_true_eq, beq_iff_eq,
        logo_test_indices, List.mem_filter, List.mem_range,
        decide_eq_true_eq, hv]
      constructor
      · intro h
        have := h.2
        injection this with hval
        exact hval.symm
      · intro h
        exact ⟨hilt, by rw [h]⟩
    rw [List.countP_congr hcongr]
    have : runs.dedup.countP (fun g => g == runs[i])
        = runs.dedup.count runs[i] := rfl
    rw [this, List.count_dedup,
      if_pos (List.getElem_mem hilt)]

/-- The error cases of the library `Decoder.fit` call, which sklearn/nilearn
raise as exceptions: an empty selection, fewer than two classes in the
training labels, or fewer than two distinct groups for leave-one-group-out
cross-validation. -/
inductive FitError
  | emptySelection
  | tooFewClasses
  | tooFewGroups
deriving DecidableEq

/-- A fit nilearn decoder, reduced to the attributes the notebook reads:
`classes_` and `cv_scores_`. -/
structure FitDecoder where
  classes : List String
  cv_scores : List (String × List ℚ)

/-- The `decoder.fit(..., groups=...)` call: fails on an empty selection, on a
single class, or on a single distinct run (library behaviour); otherwise
produces the fit decoder, whose per-class fold scores come from the opaque
library SVM `clf`. -/
def decoder_fit (clf : List String → List Int → List (String × List ℚ))
    (cond_sel : List String) (run_sel : List Int) :
    Except FitError FitDecoder :=
  if cond_sel.isEmpty then Except.error FitError.emptySelection
  else if (decoder_classes cond_sel).length < 2 then
    Except.error FitError.tooFewClasses
  else if run_sel.dedup.length < 2 then Except.error FitError.tooFewGroups
  else Except.ok ⟨decoder_classes cond_sel, clf cond_sel run_sel⟩

/-- `svm_loro_cv` from the notebook: select the wanted conditions with
`select_data`, then fit the decoder with leave-one-run-out cross-validation
and return it (printing the accuracy does not change the result; `mask`
restricts only the unmodelled voxel features). -/
def svm_loro_cv (clf : List String → List Int → List (String × List ℚ))
    (behav_df : LabelTable) (mask : String) (conditions_arr : List String) :
    Except FitError FitDecoder :=
  let sel := select_data behav_df conditions_arr
  decoder_fit clf sel.1 sel.2

/-- `run_class_zmap` from the notebook: build the comprehension selection
mask over the GLM task labels, select labels and run labels by it, fit the
decoder (standardize=False), and return the average accuracy from
`print_class_accuracy`. -/
def run_class_zmap (clf : List String → List Int → List (String × List ℚ))
    (task_label_arg : List String) (run_label_arg : List Int) (mask : String)
    (categories : List String) : Except FitError (Option ℚ) :=
  let sel_mask := comprehension_mask task_label_arg categories
  let task_sel := applyMask sel_mask task_label_arg
  let run_sel := applyMask sel_mask run_label_arg
  (decoder_fit clf task_sel run_sel).map
    (fun d => print_class_accuracy d.cv_scores)

/-- The category pair of the faces-vs-places contrast. -/
def faces_houses : List String := ["face", "house"]

/-- The category pair of the cats-vs-shoes contrast. -/
def cats_shoes : List String := ["cat", "shoe"]

/-- The path string of the ventral temporal cortex mask. -/
def mask_vt : String :=
  "mask_vt"

/-- The path string of the house-selective mask. -/
def mask_house : String :=
  "mask_house"

/-- The path string of the face-selective mask. -/
def mask_face : String :=
  "mask_face"

/-- The `(mask, categories)` combinations evaluated by the notebook's
`run_class_zmap` call sequence, in call order: faces/houses then cats/shoes
in the ventral temporal mask, the house-selective mask, and the
face-selective mask. -/
def sweep_combos : List (String × List String) :=
  [(mask_vt, faces_houses), (mask_vt, cats_shoes),
   (mask_house, faces_houses), (mask_house, cats_shoes),
   (mask_face, faces_houses), (mask_face, cats_shoes)]

/-- Fail-fast sequential evaluation: the shape of the notebook's straight-line
cell sequence, where each assignment must succeed before the next cell runs
and the first raised exception aborts the rest. -/
def run_all {ε α β : Type} (f : α → Except ε β) : List α → Except ε (List β)
  | [] => Except.ok []
  | a :: l => (f a).bind (fun b => (run_all f l).map (fun bs => b :: bs))

/-- The notebook's classification sweep: the six `run_class_zmap` calls on the
GLM task and run labels, evaluated in sequence with no error handling. -/
def run_sweep (clf : List String → List Int → List (String × List ℚ))
    (task_labels : List String) (run_labels : List Int) :
    Except FitError (List (Option ℚ)) :=
  run_all (fun c => run_class_zmap clf task_labels run_labels c.1 c.2)
    sweep_combos

theorem run_all_fails {ε α β : Type} (f : α → Except ε β) (l : List α)
    (a : α) (ha : a ∈ l) (hf : (f a).isOk = false) :
    (run_all f l).isOk = false := by
  induction l with
  | nil => cases ha
  | cons b t ih =>
    rw [run_all]
    cases hb : f b with
    | error e => rfl
    | ok v =>
      rcases List.mem_cons.mp ha with h | h
      · subst h
        rw [hb] at hf
        exact absurd hf (by simp [Except.isOk, Except.toBool])
      · have ht := ih h
        cases hrest : run_all f t with
        | error e =>
          simp [Except.bind, Except.map, Except.isOk, Except.toBool]
        | ok vs =>
          rw [hrest] at ht
          exact absurd ht (by simp [Except.isOk, Except.toBool])

/-- C5 counterexample: the wanted set `face, bogus` contains a category
(`bogus`) absent from the label table, yet `select_data` returns a non-empty
subset (the `face` frames) — selection on a set merely containing an absent
category is not empty. -/
theorem empty_selection_counterexample :
    ("bogus" ∈ (["face", "bogus"] : List String))
    ∧ "bogus" ∉ (⟨["face"], [0]⟩ : LabelTable).labels
    ∧ (select_data ⟨["face"], [0]⟩ ["face", "bogus"]).1 = ["face"] := by
  decide

/-- C5 amended: when no wanted category occurs in the label table,
`select_data` returns an empty selection (empty label and run subsequences,
not an error); the notebook then passes the empty selection straight to the
decoder fit, which fails — there is no NaN accuracy report and no
EmptySelection row marking. -/
theorem empty_selection_amended (behavioral : LabelTable)
    (cats : List String) (habs : ∀ c ∈ cats, c ∉ behavioral.labels) :
    (select_data behavioral cats).1 = []
    ∧ (select_data behavioral cats).2 = []
    ∧ ∀ clf mask, svm_loro_cv clf behavioral mask cats
        = Except.error FitError.emptySelection := by
  have hmask : ∀ b ∈ isinMask behavioral.labels cats, b = false := by
    intro b hb
    rw [isinMask] at hb
    obtain ⟨x, hx, rfl⟩ := List.mem_map.mp hb
    simp only [decide_eq_false_iff_not]
    intro hxc
    exact habs x hxc hx
  have h1 : (select_data behavioral cats).1 = [] :=
    applyMask_false _ _ hmask
  have h2 : (select_data behavioral cats).2 = [] :=
    applyMask_false _ _ hmask
  refine ⟨h1, h2, fun clf mask => ?_⟩
  have : svm_loro_cv clf behavioral mask cats
      = decoder_fit clf (select_data behavioral cats).1
          (select_data behavioral cats).2 := rfl
  rw [this, h1, h2]
  rfl

/-- Witness for the amended C5: the categories `cat, shoe` against a
faces-and-houses-only table. -/
theorem empty_selection_amended_witness :
    (∀ c ∈ (["cat", "shoe"] : List String),
        c ∉ (⟨["face", "house"], [0, 1]⟩ : LabelTable).labels)
    ∧ ((select_data ⟨["face", "house"], [0, 1]⟩ ["cat", "shoe"]).1 = []
      ∧ (select_data ⟨["face", "house"], [0, 1]⟩ ["cat", "shoe"]).2 = []
      ∧ ∀ clf mask, svm_loro_cv clf ⟨["face", "house"], [0, 1]⟩ mask
          ["cat", "shoe"] = Except.error FitError.emptySelection) :=
  ⟨by decide,
    empty_selection_amended ⟨["face", "house"], [0, 1]⟩ ["cat", "shoe"]
      (by decide)⟩

/-- A concrete stand-in for the opaque library SVM: a classifier whose
per-class fold scores are all `1`. -/
def clf_const : List String → List Int → List (String × List ℚ) :=
  fun _ _ => [Prod.mk "face" [1], Prod.mk "house" [1]]

/-- GLM task labels containing only the faces-vs-houses categories. -/
def glm_task_labels : List String := ["face", "house", "face", "house"]

/-- GLM run labels for two runs. -/
def glm_run_labels : List Int := [0, 0, 1, 1]

/-- C6 counterexample: with GLM labels containing only faces and houses, the
cats-vs-shoes combination fails (empty selection) while the faces-vs-houses
combination succeeds; the notebook's unguarded call sequence then evaluates to
the raised error, producing no results at all — no partial table, no row
flag. -/
theorem sweep_failure_counterexample :
    (run_class_zmap clf_const glm_task_labels glm_run_labels
        mask_vt cats_shoes).isOk = false
    ∧ (run_class_zmap clf_const glm_task_labels glm_run_labels
        mask_vt faces_houses).isOk = true
    ∧ run_sweep clf_const glm_task_labels glm_run_labels
        = Except.error FitError.emptySelection := by
  refine ⟨by decide, by decide, ?_⟩
  rfl

/-- C6 amended: a failure in any one `(mask, category-pair)` combination
aborts the whole call sequence — the notebook catches no errors, so the first
raised exception stops the sweep and no results (not even a partial table with
flagged rows) are produced. -/
theorem sweep_aborts_on_failure
    (clf : List String → List Int → List (String × List ℚ))
    (task_labels : List String) (run_labels : List Int)
    (combo : String × List String) (hmem : combo ∈ sweep_combos)
    (hfail : (run_class_zmap clf task_labels run_labels combo.1
        combo.2).isOk = false) :
    (run_sweep clf task_labels run_labels).isOk = false :=
  run_all_fails _ sweep_combos combo hmem hfail

/-- Witness for the amended C6: the cats-vs-shoes combination in the ventral
temporal mask fails on faces-and-houses-only labels, and the sweep fails with
it. -/
theorem sweep_aborts_on_failure_witness :
    ((Prod.mk mask_vt cats_shoes) ∈ sweep_combos)
    ∧ (run_class_zmap clf_const glm_task_labels glm_run_labels
        mask_vt cats_shoes).isOk = false
    ∧ (run_sweep clf_const glm_task_labels glm_run_labels).isOk = false :=
  ⟨by decide, by decide,
    sweep_aborts_on_failure clf_const glm_task_labels glm_run_labels
      (Prod.mk mask_vt cats_shoes) (by decide) (by decide)⟩

/-- A cell of the results DataFrame: a numeric value or a string label. -/
inductive Cell
  | num (q : ℚ)
  | str (s : String)
deriving DecidableEq

/-- Name of the accuracy column of the results DataFrame. -/
def acc_col_name : String :=
  "Classification accuracy"

/-- Name of the category-pair column of the results DataFrame. -/
def cat_col_name : String :=
  "Classification categories"

/-- Name of the region column of the results DataFrame. -/
def roi_col_name : String :=
  "Region of interest"

/-- The faces-vs-places category-pair identifier used in the table. -/
def faces_places_label : String :=
  "Faces vs. Places"

/-- The cats-vs-shoes category-pair identifier used in the table. -/
def cats_shoes_label : String :=
  "Cats vs. Shoes"

/-- The ventral-temporal region identifier used in the table. -/
def vtc_label : String :=
  "VTC"

/-- The face-selective region identifier used in the table. -/
def ffa_label : String :=
  "FFA"

/-- The house-selective region identifier used in the table. -/
def ppa_label : String :=
  "PPA"

/-- `np.append(np.repeat(faces-places, 3), np.repeat(cats-shoes, 3))` from the
results cell. -/
def classification_categories : List String :=
  List.replicate 3 faces_places_label ++ List.replicate 3 cats_shoes_label

/-- The region-of-interest column values from the results cell. -/
def region_of_interest : List String :=
  [vtc_label, ffa_label, ppa_label, vtc_label, ffa_label, ppa_label]

/-- The results DataFrame of the notebook: the six accuracies (in the order
FvH-VTC, FvH-FFA, FvH-PPA, CvS-VTC, CvS-FFA, CvS-PPA) multiplied by 100 in
the accuracy column, the category-pair column, and the region column. -/
def results_df (res_FvH_vtc res_FvH_ffa res_FvH_ppa res_CvS_vtc res_CvS_ffa
    res_CvS_ppa : ℚ) : List (String × List Cell) :=
  [(acc_col_name,
    [res_FvH_vtc, res_FvH_ffa, res_FvH_ppa, res_CvS_vtc, res_CvS_ffa,
      res_CvS_ppa].map (fun a => Cell.num (a * 100))),
   (cat_col_name, classification_categories.map Cell.str),
   (roi_col_name, region_of_interest.map Cell.str)]

/-- Row `i` of a column-oriented frame: the `i`-th entry of every column. -/
def df_row (df : List (String × List Cell)) (i : ℕ) : List (Option Cell) :=
  df.map (fun col => col.2[i]?)

/-- C8 counterexample: at concrete accuracies the results table has exactly
the three columns accuracy, category pair and region, and no column holds the
chance level `1/2` of the binary contrasts (on the 0–1 scale) — so a row of
the table does not hold the chance level, contradicting the claimed row
contents (the same holds for the claimed success/failure flag: every cell is
a rescaled accuracy or a label). -/
theorem results_table_counterexample :
    (results_df (9/10) (8/10) (7/10) (6/10) (5/10) (4/10)).map Prod.fst
        = [acc_col_name, cat_col_name, roi_col_name]
    ∧ ¬ ∃ col ∈ results_df (9/10) (8/10) (7/10) (6/10) (5/10) (4/10),
        col.2 = List.replicate 6 (Cell.num (1/2)) := by
  refine ⟨rfl, ?_⟩
  rintro ⟨col, hmem, heq⟩
  simp only [results_df, List.mem_cons, List.not_mem_nil, or_false] at hmem
  rcases hmem with h | h | h <;> subst h <;>
    simp only [List.replicate, List.map_cons, List.map_nil, List.cons.injEq,
      List.nil_eq, Cell.num.injEq, classification_categories,
      region_of_interest, List.replicate_succ, List.append_nil,
      List.cons_append, List.nil_append, and_true] at heq
  · rcases heq with ⟨h1, _⟩
    norm_num at h1
  · rcases heq with ⟨h1, _⟩
    exact Cell.noConfusion h1
  · rcases heq with ⟨h1, _⟩
    exact Cell.noConfusion h1

/-- C8 amended: the results table has one row per (mask, category-pair)
combination — six rows over exactly three columns — and row `i` holds the
category-pair identifier, the region identifier, and that combination's
aggregate accuracy rescaled to the 0–100 scale; no chance-level column and no
success/failure flag are present. -/
theorem results_df_rows (a b c d e f : ℚ) :
    (results_df a b c d e f).map Prod.fst
        = [acc_col_name, cat_col_name, roi_col_name]
    ∧ (∀ col ∈ results_df a b c d e f, col.2.length = 6)
    ∧ df_row (results_df a b c d e f) 0
        = [some (Cell.num (a * 100)), some (Cell.str faces_places_label),
           some (Cell.str vtc_label)]
    ∧ df_row (results_df a b c d e f) 1
        = [some (Cell.num (b * 100)), some (Cell.str faces_places_label),
           some (Cell.str ffa_label)]
    ∧ df_row (results_df a b c d e f) 2
        = [some (Cell.num (c * 100)), some (Cell.str faces_places_label),
           some (Cell.str ppa_label)]
    ∧ df_row (results_df a b c d e f) 3
        = [some (Cell.num (d * 100)), some (Cell.str cats_shoes_label),
           some (Cell.str vtc_label)]
    ∧ df_row (results_df a b c d e f) 4
        = [some (Cell.num (e * 100)), some (Cell.str cats_shoes_label),
           some (Cell.str ffa_label)]
    ∧ df_row (results_df a b c d e f) 5
        = [some (Cell.num (f * 100)), some (Cell.str cats_shoes_label),
           some (Cell.str ppa_label)] := by
  refine ⟨rfl, ?_, rfl, rfl, rfl, rfl, rfl, rfl⟩
  intro col hcol
  simp only [results_df, List.mem_cons, List.not_mem_nil, or_false] at hcol
  rcases hcol with h | h | h <;> subst h <;> rfl

/-- `calc_prop_sig` from the activation notebook,
`np.sum(x < alpha) / len(x)`, applied to a one-dimensional array: the count
of entries strictly below `alpha` divided by the number of entries. -/
def calc_prop_sig (x : List ℚ) (alpha : ℚ) : ℚ :=
  ((x.countP (fun v => decide (v < alpha)) : ℕ) : ℚ) / (x.length : ℚ)

/-- `calc_prop_sig` applied to the two-dimensional input shape its docstring
documents: `np.sum(x < alpha)` counts entries below `alpha` over all entries,
while `len(x)` is the length of the first axis (the number of rows) only. -/
def calc_prop_sig_2d (x : List (List ℚ)) (alpha : ℚ) : ℚ :=
  (((x.map (fun row => row.countP (fun v => decide (v < alpha)))).sum : ℕ) : ℚ)
    / (x.length : ℚ)

/-- C10: on a non-empty one-dimensional array, `calc_prop_sig` returns the
number of entries strictly below `alpha` divided by the length of the array,
a value in `[0, 1]`; the two-dimensional input shape documented by the
docstring has no such guarantee (the divisor being the first-axis length
only, the result can exceed `1`). -/
theorem calc_prop_sig_correct (x : List ℚ) (alpha : ℚ) (hne : x ≠ []) :
    calc_prop_sig x alpha
        = (((x.filter (fun v => decide (v < alpha))).length : ℕ) : ℚ)
          / (x.length : ℚ)
    ∧ 0 ≤ calc_prop_sig x alpha
    ∧ calc_prop_sig x alpha ≤ 1
    ∧ 1 < calc_prop_sig_2d [[0, 0], [0, 0]] 1 := by
  have hlpos : 0 < x.length := List.length_pos.mpr hne
  have hcount : x.countP (fun v => decide (v < alpha)) ≤ x.length :=
    List.countP_le_length _
  refine ⟨?_, ?_, ?_, ?_⟩
  · rw [calc_prop_sig, List.countP_eq_length_filter]
  · rw [calc_prop_sig]
    positivity
  · rw [calc_prop_sig, div_le_one (by exact_mod_cast hlpos)]
    exact_mod_cast hcount
  · norm_num [calc_prop_sig_2d, List.countP_cons, List.countP_nil]

/-- Witness for C10 at `x = [0, 1]`, `alpha = 1/2`: the proportion is
`1/2 ∈ [0, 1]`. -/
theorem calc_prop_sig_correct_witness :
    (([0, 1] : List ℚ) ≠ [])
    ∧ calc_prop_sig [0, 1] (1/2)
        = (((([0, 1] : List ℚ).filter
            (fun v => decide (v < 1/2))).length : ℕ) : ℚ)
          / ((([0, 1] : List ℚ).length : ℕ) : ℚ)
    ∧ 0 ≤ calc_prop_sig [0, 1] (1/2)
    ∧ calc_prop_sig [0, 1] (1/2) ≤ 1 :=
  ⟨by simp, (calc_prop_sig_correct [0, 1] (1/2) (by simp)).1,
    (calc_prop_sig_correct [0, 1] (1/2) (by simp)).2.1,
    (calc_prop_sig_correct [0, 1] (1/2) (by simp)).2.2.1⟩

end Exploration
